import Mathlib

/-!
Verification of the Cadova C++ core.

A shallow embedding of `Sources/CadovaCPP/src/CadovaCPP.cpp` (with its header
`CadovaCPP.h`) and proofs about its two transforms:

* `PolygonNode.FromPolygons` / `NodeFromClipperTree` — reconstruction of an
  owned polygon forest from the external clip engine's polytree result;
* `BulkReadMesh` — bulk export of a solid model's numeric buffers through
  optional caller-supplied sinks.

Coordinates are `double` in the source; this layer performs no arithmetic on
them (it only copies them between containers), so they are embedded as exact
rationals `Rat`.  The two external kernels (the Clipper2 boolean-clip engine
and the Manifold solid-modeling kernel) are not part of the repository; they
are modelled from the spec's interface descriptions, as explicit parameters
(the clip engine) or as structures carrying the kernel-provided snapshot
(the mesh), with their spec-stated guarantees taken as hypotheses.
Effects (engine invocations, callback deliveries) are made observable by
returning explicit traces alongside the results.
-/

namespace Cadova

/-- Embedding of `cadova::Point` from `CadovaCPP.h`: an immutable pair of coordinates. -/
structure Point where
  x : Rat
  y : Rat
deriving DecidableEq, Repr

/-- Embedding of `Clipper2Lib::PointD`: the clip engine's point type. -/
structure PointD where
  x : Rat
  y : Rat
deriving DecidableEq, Repr

/-- Embedding of `Clipper2Lib::PathD`: one path (loop) of the clip engine. -/
abbrev PathD := List PointD

/-- Embedding of `Clipper2Lib::PathsD`: a set of paths of the clip engine. -/
abbrev PathsD := List PathD

/-- The `manifold` kernel's 2-D vertex type (`v.x`, `v.y` in the source). -/
structure Vec2 where
  x : Rat
  y : Rat
deriving DecidableEq, Repr

/-- Embedding of `manifold::Polygons`: an ordered collection of simple
polygons, each an ordered sequence of 2-D vertices. -/
abbrev Polygons := List (List Vec2)

/-- Embedding of `Clipper2Lib::PolyPathD`: one node of the clip engine's polytree result.
Its own loop is `Polygon()` and its ordered children are the nested nodes.
`Clipper2Lib::PolyTreeD` is the root `PolyPathD` (whose own polygon is
empty) filled in by the engine. -/
inductive PolyPathD where
  | mk (polygon : List PointD) (children : List PolyPathD)
deriving Repr

/-- Accessor `node->Polygon()` — the node's own loop. -/
def PolyPathD.polygon : PolyPathD → List PointD
  | .mk p _ => p

/-- Embedding of the iteration `for (const auto& child : *node)` — the node's ordered
children. -/
def PolyPathD.children : PolyPathD → List PolyPathD
  | .mk _ c => c

/-- Embedding of `cadova::PolygonNode` from `CadovaCPP.h`: one boundary loop together with
its ordered children.  The C++ `children` is a `std::vector<PolygonNode*>`
of raw (nullable) owning pointers, so each entry is embedded as an
`Option PolygonNode`. -/
inductive PolygonNode where
  | mk (polygon : List Point) (children : List (Option PolygonNode))
deriving Repr

/-- Field access `node.polygon`. -/
def PolygonNode.polygon : PolygonNode → List Point
  | .mk p _ => p

/-- Field access `node.children`. -/
def PolygonNode.children : PolygonNode → List (Option PolygonNode)
  | .mk _ c => c

mutual

/-- Embedding of `cadova::NodeFromClipperTree` from `CadovaCPP.cpp` lines 6–20: a null
input maps to a null result; otherwise the node's loop is copied point by
point (`polygon.emplace_back(pt.x, pt.y)`) and each child is converted
recursively, in order
(`result->children.push_back(NodeFromClipperTree(child.get()))`). -/
def NodeFromClipperTree : Option PolyPathD → Option PolygonNode
  | none => none
  | some (.mk polygon children) =>
      some (PolygonNode.mk (polygon.map fun pt => Point.mk pt.x pt.y)
        (childrenFromClipperTree children))
termination_by o => sizeOf o
decreasing_by
  simp_wf
  omega

/-- Embedding of the child-conversion loop of `NodeFromClipperTree`, pushing
`NodeFromClipperTree(child.get())` for each child in order. -/
def childrenFromClipperTree : List PolyPathD → List (Option PolygonNode)
  | [] => []
  | c :: cs => NodeFromClipperTree (some c) :: childrenFromClipperTree cs
termination_by cs => sizeOf cs
decreasing_by
  all_goals simp_wf
  all_goals
    have hpos : 0 < sizeOf cs := by cases cs <;> simp_arith
    omega

end

/-- Embedding of `Clipper2Lib::ClipType` (the clip operation selector). -/
inductive ClipType where
  | Intersection
  | Union
  | Difference
  | Xor
deriving DecidableEq, Repr

/-- Embedding of `Clipper2Lib::FillRule`. -/
inductive FillRule where
  | EvenOdd
  | NonZero
  | Positive
  | Negative
deriving DecidableEq, Repr

/-- One invocation of `Clipper2Lib::BooleanOp(cliptype, fillrule, subjects,
clips, polytree, precision)`, recorded argument by argument. -/
structure EngineCall where
  cliptype : ClipType
  fillrule : FillRule
  subjects : PathsD
  clips : PathsD
  precision : Int
deriving DecidableEq, Repr

/-- Modelled from the spec (§6): the external boolean-union/clip engine,
which is not part of this repository, "consumed via one call taking (clip
operation, fill rule, two polygon-set operands, working precision) and
returning a nested polygon-tree result".  It is embedded as a function from
the recorded call to the polytree the engine fills in. -/
def ClipEngine := EngineCall → PolyPathD

/-- The path-set conversion loop inlined in `PolygonNode::FromPolygons`
(`CadovaCPP.cpp` lines 42–52): each input polygon becomes a `PathD` via
`path.emplace_back(PointD(pt.x, pt.y))`, in order. -/
def fromPolygonsInlinePaths (inputPolygons : Polygons) : PathsD :=
  inputPolygons.map fun poly => poly.map fun pt => PointD.mk pt.x pt.y

/-- Embedding of `cadova::PathsDFromManifoldPolygon` from `CadovaCPP.cpp` lines 22–38:
converts `manifold::Polygons` to `Clipper2Lib::PathsD`, pushing
`path.emplace_back(v.x, v.y)` for each vertex in order. -/
def PathsDFromManifoldPolygon (polys : Polygons) : PathsD :=
  polys.map fun poly => poly.map fun v => PointD.mk v.x v.y

/-- The single engine call issued by `PolygonNode::FromPolygons`:
`BooleanOp(ClipType::Union, FillRule::Positive, paths, PathsD(), tree, 8)`. -/
def fromPolygonsCall (inputPolygons : Polygons) : EngineCall :=
  { cliptype := ClipType.Union
    fillrule := FillRule.Positive
    subjects := fromPolygonsInlinePaths inputPolygons
    clips := []
    precision := 8 }

/-- Embedding of `cadova::PolygonNode::FromPolygons` from `CadovaCPP.cpp` lines 40–57,
parameterized by the external clip engine `E` and instrumented with the
list of engine invocations it performs: it converts the input polygons to
engine paths, issues one `BooleanOp` union call, and converts the resulting
polytree (whose root is `&tree`, a non-null pointer) back. -/
def FromPolygons (E : ClipEngine) (inputPolygons : Polygons) :
    Option PolygonNode × List EngineCall :=
  let call := fromPolygonsCall inputPolygons
  let tree := E call
  (NodeFromClipperTree (some tree), [call])

/-- Modelled from the spec (§3, §6): the solid-modeling kernel's mesh
snapshot `manifold::MeshGL64`, which is not part of this repository.  It
carries the flattened vertex-property buffer with its per-vertex attribute
count, the flattened triangle-index buffer, and the two provenance run
arrays; only these fields are read by `BulkReadMesh`. -/
structure MeshGL64 where
  numProp : Nat
  vertProperties : List Rat
  triVerts : List Nat
  runIndex : List Nat
  runOriginalID : List Nat
deriving DecidableEq, Repr

/-- Modelled from the spec (§4.3): `mesh.NumVert()`, the vertex count, with
`values.length == vertexCount * propertyCount` for the vertex buffer. -/
def MeshGL64.NumVert (m : MeshGL64) : Nat :=
  m.vertProperties.length / m.numProp

/-- Modelled from the spec (§4.3): `mesh.NumTri()`, the triangle count, with
`values.length == triangleCount * 3` for the triangle buffer. -/
def MeshGL64.NumTri (m : MeshGL64) : Nat :=
  m.triVerts.length / 3

/-- Modelled from the spec (§6): an already-built solid model
(`manifold::Manifold`), consumed through the one kernel call
`man.GetMeshGL64()` that yields its read-only mesh snapshot. -/
structure Manifold where
  GetMeshGL64 : MeshGL64

/-- One observable event of a `BulkReadMesh` invocation: the unconditional
kernel snapshot call `man.GetMeshGL64()`, or the synchronous delivery of
one channel to its sink, with the exact arguments the source passes. -/
inductive ExportEvent where
  | kernelSnapshot
  | propertyCB (values : List Rat) (vertexCount propertyCount : Nat)
  | triangleCB (values : List Nat) (count : Nat)
  | originalIDCB (runIndex : List Nat) (runIndexCount : Nat)
      (runOriginalIDs : List Nat) (originalIDCount : Nat)
deriving DecidableEq, Repr

/-- Decides whether an export event is a sink callback (as opposed to the
kernel snapshot extraction). -/
def ExportEvent.isCallback : ExportEvent → Bool
  | .kernelSnapshot => false
  | _ => true

/-- Embedding of `cadova::BulkReadMesh` from `CadovaCPP.cpp` lines 63–79 as
its trace of observable events.  Each of the three block arguments is
represented by whether it is non-null (`true` = sink provided).  The source
first runs `auto mesh = man.GetMeshGL64();` unconditionally, then invokes
each non-null sink exactly once, in order, with the snapshot's buffers. -/
def BulkReadMesh (man : Manifold)
    (propertyReader triangleReader originalIDReader : Bool) :
    List ExportEvent :=
  let mesh := man.GetMeshGL64
  [ExportEvent.kernelSnapshot]
    ++ (if propertyReader then
          [ExportEvent.propertyCB mesh.vertProperties mesh.NumVert mesh.numProp]
        else [])
    ++ (if triangleReader then
          [ExportEvent.triangleCB mesh.triVerts mesh.NumTri]
        else [])
    ++ (if originalIDReader then
          [ExportEvent.originalIDCB mesh.runIndex mesh.runIndex.length
            mesh.runOriginalID mesh.runOriginalID.length]
        else [])

/-- Decides whether an export event is the vertex-property delivery. -/
def ExportEvent.isPropertyCB : ExportEvent → Bool
  | .propertyCB _ _ _ => true
  | _ => false

/-- Decides whether an export event is the triangle delivery. -/
def ExportEvent.isTriangleCB : ExportEvent → Bool
  | .triangleCB _ _ => true
  | _ => false

/-- Decides whether an export event is the provenance delivery. -/
def ExportEvent.isOriginalIDCB : ExportEvent → Bool
  | .originalIDCB _ _ _ _ => true
  | _ => false

/-- Twice the signed (shoelace) area of a clip-engine path.  Used only to
state which inputs are degenerate (zero-area) and to compare loops by area;
the repository code itself never computes areas. -/
def signedArea2 (p : PathD) : Rat :=
  ((p.zip (p.rotate 1)).map fun q => q.1.x * q.2.y - q.2.x * q.1.y).sum

/-- Twice the signed (shoelace) area of a reconstructed `PolygonNode` loop. -/
def signedArea2Loop (p : List Point) : Rat :=
  ((p.zip (p.rotate 1)).map fun q => q.1.x * q.2.y - q.2.x * q.1.y).sum

/-- Conversion of a reconstructed loop back to engine points, for comparing
a `PolygonNode`'s loop with the engine result's loops coordinate-wise. -/
def loopToPointD (l : List Point) : List PointD :=
  l.map fun p => PointD.mk p.x p.y

mutual

/-- Collects every loop stored in a polytree node or its descendants,
the node's own loop first, depth-first in child order. -/
def treeLoops : PolyPathD → List (List PointD)
  | .mk polygon children => polygon :: treeLoopsList children
termination_by t => sizeOf t
decreasing_by
  all_goals simp_wf

/-- Collects the loops of a list of polytree nodes, in order. -/
def treeLoopsList : List PolyPathD → List (List PointD)
  | [] => []
  | c :: cs => treeLoops c ++ treeLoopsList cs
termination_by cs => sizeOf cs
decreasing_by
  all_goals simp_wf
  all_goals omega

end

/-- The boundary loops of the union result represented by an engine polytree:
the loops of all proper descendants of the root (the root `PolyTreeD` node
itself carries no loop of the result). -/
def unionResultLoops (t : PolyPathD) : List (List PointD) :=
  treeLoopsList t.children

mutual

/-- Collects every loop stored in a reconstructed `PolygonNode` structure
(a null node contributing nothing), the node's own loop first, depth-first
in child order. -/
def nodePolygons : Option PolygonNode → List (List Point)
  | none => []
  | some (.mk polygon children) => polygon :: nodePolygonsList children
termination_by o => sizeOf o
decreasing_by
  simp_wf
  omega

/-- Collects the loops of a list of (nullable) `PolygonNode` children. -/
def nodePolygonsList : List (Option PolygonNode) → List (List Point)
  | [] => []
  | c :: cs => nodePolygons c ++ nodePolygonsList cs
termination_by cs => sizeOf cs
decreasing_by
  all_goals simp_wf
  all_goals
    have hpos : 0 < sizeOf cs := by cases cs <;> simp_arith
    omega

end

mutual

/-- Nesting structure of an engine polytree, flattened as one
ancestor-area chain per node: for each node, the list of shoelace areas of
the loops on the path from the root down to that node.  Two trees with the
same multiset of chains have the same loops (by area), the same parent/child
containment relationships, and the same depth parity. -/
def areaChains : PolyPathD → List Rat → List (List Rat)
  | .mk polygon children, pre =>
      (pre ++ [signedArea2 polygon]) ::
        areaChainsList children (pre ++ [signedArea2 polygon])
termination_by t _ => sizeOf t
decreasing_by
  all_goals simp_wf

/-- Chains of a list of polytree nodes under a common ancestor prefix. -/
def areaChainsList : List PolyPathD → List Rat → List (List Rat)
  | [], _ => []
  | c :: cs, pre => areaChains c pre ++ areaChainsList cs pre
termination_by cs _ => sizeOf cs
decreasing_by
  all_goals simp_wf
  all_goals omega

end

mutual

/-- Nesting structure of a reconstructed `PolygonNode` structure, flattened
as one ancestor-area chain per (non-null) node, mirroring `areaChains`. -/
def nodeAreaChains : Option PolygonNode → List Rat → List (List Rat)
  | none, _ => []
  | some (.mk polygon children), pre =>
      (pre ++ [signedArea2Loop polygon]) ::
        nodeAreaChainsList children (pre ++ [signedArea2Loop polygon])
termination_by o _ => sizeOf o
decreasing_by
  simp_wf
  omega

/-- Chains of a list of (nullable) children under a common ancestor prefix. -/
def nodeAreaChainsList : List (Option PolygonNode) → List Rat → List (List Rat)
  | [], _ => []
  | c :: cs, pre => nodeAreaChains c pre ++ nodeAreaChainsList cs pre
termination_by cs _ => sizeOf cs
decreasing_by
  all_goals simp_wf
  all_goals
    have hpos : 0 < sizeOf cs := by cases cs <;> simp_arith
    omega

end

/-- Relates a polygon to a rotation of its vertex sequence (the same closed
loop read from a different starting vertex). -/
def RotationOf (p q : List Vec2) : Prop :=
  ∃ n, q = p.rotate n

/-- Relates two input collections that present the same polygons: `P'` is a
permutation of `P` in which each polygon's point order may additionally be
rotated. -/
def InputEquiv (P Pp : Polygons) : Prop :=
  ∃ Q, List.Forall₂ RotationOf P Q ∧ Q.Perm Pp

/-- Concrete unit-square loop as engine points, for witnesses and
counterexamples. -/
def sqPathD : PathD :=
  [PointD.mk 0 0, PointD.mk 1 0, PointD.mk 1 1, PointD.mk 0 1]

/-- Concrete unit-square loop as reconstructed points. -/
def sqPoints : List Point :=
  [Point.mk 0 0, Point.mk 1 0, Point.mk 1 1, Point.mk 0 1]

/-- Concrete one-square input collection. -/
def unitSquareInput : Polygons :=
  [[Vec2.mk 0 0, Vec2.mk 1 0, Vec2.mk 1 1, Vec2.mk 0 1]]

/-- Concrete degenerate (zero-area, collinear) input collection. -/
def degenerateInput : Polygons :=
  [[Vec2.mk 0 0, Vec2.mk 2 0, Vec2.mk 1 0]]

/-- Concrete clip engine whose union result is a single square loop: the
returned polytree is a root (with no loop of its own) holding one child. -/
def engineOneSquare : ClipEngine :=
  fun _ => PolyPathD.mk [] [PolyPathD.mk sqPathD []]

/-- Concrete clip engine whose result is always the empty polytree. -/
def engineEmpty : ClipEngine :=
  fun _ => PolyPathD.mk [] []

/-- Concrete mesh snapshot: 4 vertices with 3 properties each, 2 triangles,
one provenance run. -/
def exampleMesh : MeshGL64 where
  numProp := 3
  vertProperties :=
    [0, 0, 0, 1, 0, 0, 1, 1, 0, 0, 1, 0]
  triVerts := [0, 1, 2, 0, 2, 3]
  runIndex := [0]
  runOriginalID := [7]

/-- Concrete solid model wrapping `exampleMesh`. -/
def exampleMan : Manifold where
  GetMeshGL64 := exampleMesh

/-- Concrete rotation of `unitSquareInput`'s single polygon (same loop read
from its second vertex). -/
def unitSquareInputRot : Polygons :=
  [[Vec2.mk 1 0, Vec2.mk 1 1, Vec2.mk 0 1, Vec2.mk 0 0]]

theorem childrenFromClipperTree_eq_map (cs : List PolyPathD) :
    childrenFromClipperTree cs = cs.map fun c => NodeFromClipperTree (some c) := by
  induction cs with
  | nil => simp [childrenFromClipperTree]
  | cons c cs ih => simp [childrenFromClipperTree, ih]

theorem PolyPathD.inductionOn {motive : PolyPathD → Prop}
    (h : ∀ polygon children,
      (∀ c ∈ children, motive c) → motive (PolyPathD.mk polygon children)) :
    ∀ t, motive t
  | .mk polygon children =>
      h polygon children fun c _hc => PolyPathD.inductionOn h c
termination_by t => sizeOf t
decreasing_by
  simp_wf
  have := List.sizeOf_lt_of_mem _hc
  omega

theorem signedArea2Loop_map (l : List PointD) :
    signedArea2Loop (l.map fun pt => Point.mk pt.x pt.y) = signedArea2 l := by
  unfold signedArea2Loop signedArea2
  rw [← List.map_rotate, List.zip_map, List.map_map]
  rfl

theorem nodeAreaChainsList_convert (cs : List PolyPathD)
    (ih : ∀ c ∈ cs, ∀ pre : List Rat,
      nodeAreaChains (NodeFromClipperTree (some c)) pre = areaChains c pre) :
    ∀ pre : List Rat,
      nodeAreaChainsList (childrenFromClipperTree cs) pre = areaChainsList cs pre := by
  induction cs with
  | nil => intro pre; simp [childrenFromClipperTree, nodeAreaChainsList, areaChainsList]
  | cons c cs ihl =>
      intro pre
      rw [childrenFromClipperTree]
      rw [nodeAreaChainsList, areaChainsList]
      rw [ih c (List.mem_cons_self c cs) pre]
      rw [ihl (fun d hd => ih d (List.mem_cons_of_mem c hd))]

theorem nodeAreaChains_convert :
    ∀ (t : PolyPathD) (pre : List Rat),
      nodeAreaChains (NodeFromClipperTree (some t)) pre = areaChains t pre := by
  intro t
  induction t using PolyPathD.inductionOn with
  | _ polygon children ih =>
      intro pre
      rw [NodeFromClipperTree]
      rw [nodeAreaChains, areaChains, signedArea2Loop_map]
      rw [nodeAreaChainsList_convert children ih]

/-- C9: `NodeFromClipperTree` returns a null result if and only if its input
node is null; consequently `PolygonNode::FromPolygons` returns a non-null
node for every engine and every input, including the empty collection. -/
theorem nodeFromClipperTree_null_iff :
    (∀ o : Option PolyPathD, NodeFromClipperTree o = none ↔ o = none) ∧
    (∀ (E : ClipEngine) (input : Polygons), (FromPolygons E input).1 ≠ none) := by
  have hsome : ∀ t : PolyPathD, NodeFromClipperTree (some t) ≠ none := by
    intro t
    cases t with
    | mk polygon children => rw [NodeFromClipperTree]; simp
  constructor
  · intro o
    cases o with
    | none => simp [NodeFromClipperTree]
    | some t => simpa using hsome t
  · intro E input
    simpa [FromPolygons] using hsome (E (fromPolygonsCall input))

/-- C2: for every non-null engine result tree, `NodeFromClipperTree`
produces a structurally equivalent `PolygonNode` tree: the produced node's
polygon copies the engine node's loop point for point (same `x` and `y` at
every position, same order and length), and its children are the recursive
conversions of the engine node's children, in the same order. -/
theorem nodeFromClipperTree_structural (t : PolyPathD) :
    ∃ n, NodeFromClipperTree (some t) = some n ∧
      n.polygon.length = t.polygon.length ∧
      (∀ i : Nat, n.polygon[i]?.map Point.x = t.polygon[i]?.map PointD.x) ∧
      (∀ i : Nat, n.polygon[i]?.map Point.y = t.polygon[i]?.map PointD.y) ∧
      n.children = t.children.map fun c => NodeFromClipperTree (some c) := by
  cases t with
  | mk polygon children =>
      refine ⟨PolygonNode.mk (polygon.map fun pt => Point.mk pt.x pt.y)
        (childrenFromClipperTree children), ?_, ?_, ?_, ?_, ?_⟩
      · rw [NodeFromClipperTree]
      · simp [PolygonNode.polygon, PolyPathD.polygon]
      · intro i
        simp only [PolygonNode.polygon, PolyPathD.polygon, List.getElem?_map]
        cases polygon[i]? <;> rfl
      · intro i
        simp only [PolygonNode.polygon, PolyPathD.polygon, List.getElem?_map]
        cases polygon[i]? <;> rfl
      · simp [PolygonNode.children, PolyPathD.children, childrenFromClipperTree_eq_map]

/-- C3: `FromPolygons` invokes the clip engine exactly once — its call trace
is one `BooleanOp` call — with clip operation union, fill rule positive, an
empty second operand, working precision 8, and the input polygons as first
operand with count, order and every coordinate preserved. -/
theorem fromPolygons_engine_call (E : ClipEngine) (input : Polygons) :
    (FromPolygons E input).2 = [fromPolygonsCall input] ∧
    (fromPolygonsCall input).cliptype = ClipType.Union ∧
    (fromPolygonsCall input).fillrule = FillRule.Positive ∧
    (fromPolygonsCall input).clips = [] ∧
    (fromPolygonsCall input).precision = 8 ∧
    (fromPolygonsCall input).subjects.length = input.length ∧
    (∀ i : Nat, (fromPolygonsCall input).subjects[i]?.map List.length
        = input[i]?.map List.length) ∧
    (∀ (i j : Nat), ((fromPolygonsCall input).subjects[i]?.bind
          fun path => path[j]?.map PointD.x)
        = (input[i]?.bind fun poly => poly[j]?.map Vec2.x)) ∧
    (∀ (i j : Nat), ((fromPolygonsCall input).subjects[i]?.bind
          fun path => path[j]?.map PointD.y)
        = (input[i]?.bind fun poly => poly[j]?.map Vec2.y)) := by
  refine ⟨rfl, rfl, rfl, rfl, rfl, ?_, ?_, ?_, ?_⟩
  · simp [fromPolygonsCall, fromPolygonsInlinePaths]
  · intro i
    simp only [fromPolygonsCall, fromPolygonsInlinePaths, List.getElem?_map]
    cases input[i]? <;> simp
  · intro i j
    simp only [fromPolygonsCall, fromPolygonsInlinePaths, List.getElem?_map]
    cases input[i]? with
    | none => rfl
    | some poly =>
        simp only [Option.map_some', Option.some_bind, List.getElem?_map]
        cases poly[j]? <;> rfl
  · intro i j
    simp only [fromPolygonsCall, fromPolygonsInlinePaths, List.getElem?_map]
    cases input[i]? with
    | none => rfl
    | some poly =>
        simp only [Option.map_some', Option.some_bind, List.getElem?_map]
        cases poly[j]? <;> rfl

/-- C10: the helper `PathsDFromManifoldPolygon` and the conversion loop
inlined in `PolygonNode::FromPolygons` compute the same clip-engine path
set — the very same list of paths, hence the same number of paths and the
same points with the same coordinates in the same order. -/
theorem pathsDFromManifoldPolygon_eq_inline :
    ∀ polys : Polygons, PathsDFromManifoldPolygon polys = fromPolygonsInlinePaths polys :=
  fun _ => rfl

/-- C6: the triangle channel delivered by `BulkReadMesh` is handed to its
sink exactly once, carrying the triangle buffer together with
`triangleCount` where the buffer length is `triangleCount * 3` and every
value is below the vertex count.  The kernel guarantees on the snapshot
(buffer length divisible by 3; indices in range) are modelled from the
spec (§3, §4.3). -/
theorem bulkReadMesh_triangle_channel (man : Manifold) (p o : Bool)
    (h3 : man.GetMeshGL64.triVerts.length % 3 = 0)
    (hidx : ∀ v ∈ man.GetMeshGL64.triVerts, v < man.GetMeshGL64.NumVert) :
    ((BulkReadMesh man p true o).filter fun e => e.isTriangleCB)
      = [ExportEvent.triangleCB man.GetMeshGL64.triVerts man.GetMeshGL64.NumTri] ∧
    man.GetMeshGL64.triVerts.length = man.GetMeshGL64.NumTri * 3 ∧
    ∀ v ∈ man.GetMeshGL64.triVerts, v < man.GetMeshGL64.NumVert := by
  refine ⟨?_, ?_, hidx⟩
  · cases p <;> cases o <;>
      simp [BulkReadMesh, ExportEvent.isTriangleCB]
  · rw [MeshGL64.NumTri]
    exact (Nat.div_mul_cancel (Nat.dvd_of_mod_eq_zero h3)).symm

/-- Witness for C6 at the concrete model `exampleMan`. -/
theorem bulkReadMesh_triangle_channel_witness :
    ((BulkReadMesh exampleMan true true true).filter fun e => e.isTriangleCB)
      = [ExportEvent.triangleCB exampleMan.GetMeshGL64.triVerts
          exampleMan.GetMeshGL64.NumTri] ∧
    exampleMan.GetMeshGL64.triVerts.length = exampleMan.GetMeshGL64.NumTri * 3 ∧
    ∀ v ∈ exampleMan.GetMeshGL64.triVerts, v < exampleMan.GetMeshGL64.NumVert :=
  bulkReadMesh_triangle_channel exampleMan true true (by decide) (by decide)

/-- C5: the provenance channel delivered by `BulkReadMesh` is handed to its
sink exactly once, with one origin identifier per run-start index (equal
counts, each count being the actual array length), strictly ascending
run-start indices, and every run-start index bounded by `triangleCount`.
The kernel guarantees on the snapshot arrays are modelled from the spec
(§3, §4.3, §8). -/
theorem bulkReadMesh_provenance_channel (man : Manifold) (p t : Bool)
    (hasc : List.Sorted (· < ·) man.GetMeshGL64.runIndex)
    (hbound : ∀ r ∈ man.GetMeshGL64.runIndex, r ≤ man.GetMeshGL64.NumTri)
    (hcount : man.GetMeshGL64.runOriginalID.length = man.GetMeshGL64.runIndex.length) :
    ((BulkReadMesh man p t true).filter fun e => e.isOriginalIDCB)
      = [ExportEvent.originalIDCB man.GetMeshGL64.runIndex
          man.GetMeshGL64.runIndex.length man.GetMeshGL64.runOriginalID
          man.GetMeshGL64.runOriginalID.length] ∧
    man.GetMeshGL64.runOriginalID.length = man.GetMeshGL64.runIndex.length ∧
    List.Sorted (· < ·) man.GetMeshGL64.runIndex ∧
    ∀ r ∈ man.GetMeshGL64.runIndex, r ≤ man.GetMeshGL64.NumTri := by
  refine ⟨?_, hcount, hasc, hbound⟩
  cases p <;> cases t <;>
    simp [BulkReadMesh, ExportEvent.isOriginalIDCB]

/-- Witness for C5 at the concrete model `exampleMan`. -/
theorem bulkReadMesh_provenance_channel_witness :
    ((BulkReadMesh exampleMan false false true).filter fun e => e.isOriginalIDCB)
      = [ExportEvent.originalIDCB exampleMan.GetMeshGL64.runIndex
          exampleMan.GetMeshGL64.runIndex.length exampleMan.GetMeshGL64.runOriginalID
          exampleMan.GetMeshGL64.runOriginalID.length] ∧
    exampleMan.GetMeshGL64.runOriginalID.length
      = exampleMan.GetMeshGL64.runIndex.length ∧
    List.Sorted (· < ·) exampleMan.GetMeshGL64.runIndex ∧
    ∀ r ∈ exampleMan.GetMeshGL64.runIndex, r ≤ exampleMan.GetMeshGL64.NumTri :=
  bulkReadMesh_provenance_channel exampleMan false false (by decide) (by decide)
    (by decide)

/-- C4 counterexample: calling `BulkReadMesh` with zero sinks still performs
the kernel mesh extraction — the source runs `auto mesh = man.GetMeshGL64();`
unconditionally — so the event trace of a zero-sink call is the snapshot
extraction, not the empty trace the claim requires ("calling with zero
sinks performs no extraction"). -/
theorem bulkReadMesh_zero_sinks_cex :
    BulkReadMesh exampleMan false false false = [ExportEvent.kernelSnapshot] ∧
    BulkReadMesh exampleMan false false false ≠ ([] : List ExportEvent) := by
  exact ⟨by decide, by decide⟩

/-- C4 (amended): each provided sink is invoked exactly once, synchronously
within the call; a sink that is not provided is never invoked; zero sinks
issue zero callbacks; but the kernel mesh snapshot (`GetMeshGL64`) is
extracted exactly once unconditionally, even when no sink is provided. -/
theorem bulkReadMesh_sink_delivery (man : Manifold) (p t o : Bool) :
    ((BulkReadMesh man p t o).filter fun e => e.isPropertyCB).length
      = (if p then 1 else 0) ∧
    ((BulkReadMesh man p t o).filter fun e => e.isTriangleCB).length
      = (if t then 1 else 0) ∧
    ((BulkReadMesh man p t o).filter fun e => e.isOriginalIDCB).length
      = (if o then 1 else 0) ∧
    ((BulkReadMesh man p t o).filter fun e => !e.isCallback)
      = [ExportEvent.kernelSnapshot] ∧
    ((BulkReadMesh man false false false).filter fun e => e.isCallback) = [] := by
  refine ⟨?_, ?_, ?_, ?_, ?_⟩ <;>
    cases p <;> cases t <;> cases o <;>
      simp [BulkReadMesh, ExportEvent.isPropertyCB, ExportEvent.isTriangleCB,
        ExportEvent.isOriginalIDCB, ExportEvent.isCallback]

/-- C7: an empty input collection, or one containing only zero-area
(degenerate) polygons, yields an empty forest and not an error: the result
is a non-null node carrying no boundary loop and no children.  The engine
behavior — a positive-fill union of an all-degenerate subject set against
an empty clip set produces an empty polytree — is modelled from the spec
(§4.1 "zero-area or fully self-canceling polygons are dropped by the
union"). -/
theorem fromPolygons_degenerate_empty (E : ClipEngine) (input : Polygons)
    (hE : ∀ call : EngineCall,
      call.cliptype = ClipType.Union → call.clips = [] →
      (∀ path ∈ call.subjects, signedArea2 path = 0) →
      E call = PolyPathD.mk [] [])
    (hdeg : ∀ poly ∈ input, signedArea2 (poly.map fun pt => PointD.mk pt.x pt.y) = 0) :
    (FromPolygons E input).1 = some (PolygonNode.mk [] []) := by
  have hcall : E (fromPolygonsCall input) = PolyPathD.mk [] [] := by
    apply hE _ rfl rfl
    intro path hpath
    simp only [fromPolygonsCall, fromPolygonsInlinePaths, List.mem_map] at hpath
    obtain ⟨poly, hpoly, rfl⟩ := hpath
    exact hdeg poly hpoly
  simp [FromPolygons, hcall, NodeFromClipperTree, childrenFromClipperTree]

/-- Witness for C7: the empty-result engine and a concrete zero-area
(collinear) polygon. -/
theorem fromPolygons_degenerate_empty_witness :
    (FromPolygons engineEmpty degenerateInput).1 = some (PolygonNode.mk [] []) :=
  fromPolygons_degenerate_empty engineEmpty degenerateInput
    (fun _ _ _ _ => rfl)
    (by
      intro poly hpoly
      simp only [degenerateInput, List.mem_cons, List.not_mem_nil, or_false] at hpoly
      subst hpoly
      norm_num [signedArea2, List.rotate])

/-- C1 counterexample: for the unit-square input under a spec-conforming
engine result (a polytree root carrying no loop, with one square child),
`FromPolygons` returns a single wrapper node — Clipper's super-root — whose
own empty polygon is not a boundary loop of the union result.  So the call
does not return the forest as a bare sequence of depth-0 roots, and not
every node of the returned structure corresponds to a boundary loop. -/
theorem fromPolygons_superroot_cex :
    (FromPolygons engineOneSquare unitSquareInput).1
      = some (PolygonNode.mk [] [some (PolygonNode.mk sqPoints [])]) ∧
    nodePolygons (FromPolygons engineOneSquare unitSquareInput).1 = [[], sqPoints] ∧
    unionResultLoops (engineOneSquare (fromPolygonsCall unitSquareInput)) = [sqPathD] ∧
    loopToPointD [] ∉ unionResultLoops (engineOneSquare (fromPolygonsCall unitSquareInput)) := by
  refine ⟨?_, ?_, ?_, ?_⟩
  · simp [FromPolygons, engineOneSquare, NodeFromClipperTree, childrenFromClipperTree,
      sqPoints, sqPathD]
  · simp [FromPolygons, engineOneSquare, NodeFromClipperTree, childrenFromClipperTree,
      nodePolygons, nodePolygonsList, sqPoints, sqPathD]
  · simp [unionResultLoops, engineOneSquare, treeLoops, treeLoopsList, PolyPathD.children]
  · simp [unionResultLoops, engineOneSquare, treeLoops, treeLoopsList, PolyPathD.children,
      loopToPointD, sqPathD]

/-- C1 (amended): `FromPolygons` returns a single non-null wrapper
`PolygonNode` mirroring the engine's polytree root; whenever that root
carries no loop of its own (as the engine's `PolyTreeD` guarantees), the
wrapper's polygon is empty and the ordered sequence of depth-0 roots of the
forest is exactly the wrapper's `children` list — the in-order recursive
conversions of the engine root's children, each of which is a boundary loop
of the union result. -/
theorem fromPolygons_wrapper_root (E : ClipEngine) (input : Polygons)
    (hroot : (E (fromPolygonsCall input)).polygon = []) :
    ∃ n, (FromPolygons E input).1 = some n ∧ n.polygon = [] ∧
      n.children = (E (fromPolygonsCall input)).children.map
        fun c => NodeFromClipperTree (some c) := by
  cases h : E (fromPolygonsCall input) with
  | mk polygon children =>
      have hpoly : polygon = [] := by
        simpa [h, PolyPathD.polygon] using hroot
      refine ⟨PolygonNode.mk (polygon.map fun pt => Point.mk pt.x pt.y)
        (childrenFromClipperTree children), ?_, ?_, ?_⟩
      · simp only [FromPolygons, h]
        rw [NodeFromClipperTree]
      · simp [PolygonNode.polygon, hpoly]
      · simp [PolygonNode.children, PolyPathD.children, childrenFromClipperTree_eq_map]

/-- Witness for the amended C1 at a concrete engine and input. -/
theorem fromPolygons_wrapper_root_witness :
    ∃ n, (FromPolygons engineOneSquare unitSquareInput).1 = some n ∧
      n.polygon = [] ∧
      n.children = (engineOneSquare (fromPolygonsCall unitSquareInput)).children.map
        fun c => NodeFromClipperTree (some c) :=
  fromPolygons_wrapper_root engineOneSquare unitSquareInput rfl

/-- C8: the nesting structure of the reconstructed forest — its multiset of
ancestor-area chains, which determines the loops (by area), the
parent/child containment relation, and depth parity — is invariant under
permuting the input polygons and rotating any polygon's point order.  The
engine-side determinism (the union's polytree nesting structure is
invariant under such input changes, §4.1/§8) is modelled from the spec as
the hypothesis `hE`; the reconstruction is proved to preserve the
structure exactly. -/
theorem fromPolygons_nesting_invariance (E : ClipEngine) (P Pp : Polygons)
    (hE : ∀ Q Qp : Polygons, InputEquiv Q Qp →
      (areaChains (E (fromPolygonsCall Q)) []).Perm
        (areaChains (E (fromPolygonsCall Qp)) []))
    (hperm : InputEquiv P Pp) :
    (nodeAreaChains (FromPolygons E P).1 []).Perm
      (nodeAreaChains (FromPolygons E Pp).1 []) := by
  have h1 := hE P Pp hperm
  simpa [FromPolygons, nodeAreaChains_convert] using h1

/-- Witness for C8: the constant-empty engine with the unit square and its
rotation. -/
theorem fromPolygons_nesting_invariance_witness :
    (nodeAreaChains (FromPolygons engineEmpty unitSquareInput).1 []).Perm
      (nodeAreaChains (FromPolygons engineEmpty unitSquareInputRot).1 []) :=
  fromPolygons_nesting_invariance engineEmpty unitSquareInput unitSquareInputRot
    (fun _ _ _ => List.Perm.refl _)
    ⟨unitSquareInputRot,
      List.Forall₂.cons ⟨1, by decide⟩ List.Forall₂.nil,
      List.Perm.refl _⟩

end Cadova
